import Mathlib

/-!
Verification development for the model-pricing resolution and cost-calculation
engine of the better-ccusage repository.

The engine lives in the PricingFetcher class: a three-phase model-name
resolver (getModelPricing), a cost calculator supporting threshold-tiered and
range-tiered pricing (calculateCostFromPricing with its inner helpers
calculateTieredCost and calculateInputLengthTieredCost), a facade
(calculateCostFromTokens) and a memoizing loader (ensurePricingLoaded).
The dataset loader loadLocalPricingDataset validates raw JSON entries
against the model-pricing schema.

JavaScript numbers are modelled as rationals, JavaScript null/undefined as
Option, the insertion-ordered Map as an association list, and async results
as Except.  Definitions keep the names and the branch structure of the
source functions.
-/

namespace BetterCcusage

/-- One entry of the tiered_pricing array of the pricing schema:
its own input/output rates, an inclusive token range, and an optional
cache-read rate. -/
structure TieredPricingConfig where
  input_cost_per_token : ℚ
  output_cost_per_token : ℚ
  range : ℚ × ℚ
  cache_read_input_token_cost : Option ℚ
deriving DecidableEq

/-- The model pricing record (modelPricingSchema): every field optional. -/
structure ModelPricing where
  input_cost_per_token : Option ℚ
  output_cost_per_token : Option ℚ
  cache_creation_input_token_cost : Option ℚ
  cache_read_input_token_cost : Option ℚ
  max_tokens : Option ℚ
  max_input_tokens : Option ℚ
  max_output_tokens : Option ℚ
  input_cost_per_token_above_200k_tokens : Option ℚ
  output_cost_per_token_above_200k_tokens : Option ℚ
  cache_creation_input_token_cost_above_200k_tokens : Option ℚ
  cache_read_input_token_cost_above_200k_tokens : Option ℚ
  input_cost_per_token_above_128k_tokens : Option ℚ
  output_cost_per_token_above_128k_tokens : Option ℚ
  tiered_pricing : Option (List TieredPricingConfig)
deriving DecidableEq

/-- A pricing record with every optional field absent. -/
def blankPricing : ModelPricing :=
  ⟨none, none, none, none, none, none, none, none, none, none, none, none, none, none⟩

/-- Token counts for a single billing event, as passed to
calculateCostFromPricing: input and output are required, the two cache
counts are optional. -/
structure TokenUsage where
  input_tokens : ℚ
  output_tokens : ℚ
  cache_creation_input_tokens : Option ℚ
  cache_read_input_tokens : Option ℚ
deriving DecidableEq

/-- Default token threshold for tiered pricing (DEFAULT_TIERED_THRESHOLD). -/
def DEFAULT_TIERED_THRESHOLD : ℚ := 200000

/-- The inner helper calculateTieredCost of calculateCostFromPricing:
threshold-tiered cost of one token category.  A null or non-positive count
costs 0; above the threshold with an above-rate present, the excess is
charged at the above-rate and the part below at the base rate when present;
otherwise the whole count is charged at the base rate when present, else 0. -/
def calculateTieredCost (totalTokens basePrice tieredPrice : Option ℚ)
    (threshold : ℚ) : ℚ :=
  match totalTokens with
  | none => 0
  | some t =>
    if t ≤ 0 then 0
    else if t > threshold ∧ tieredPrice.isSome = true then
      (max 0 (t - threshold)) * tieredPrice.getD 0 +
        (match basePrice with
         | some bp => (min t threshold) * bp
         | none => 0)
    else
      match basePrice with
      | some bp => t * bp
      | none => 0

/-- The result record of calculateInputLengthTieredCost. -/
structure TierCostResult where
  inputCost : ℚ
  outputCost : ℚ
  cacheReadCost : ℚ
deriving DecidableEq

/-- The tier-selection loop of calculateInputLengthTieredCost: the first
tier whose inclusive range contains the input-token count, defaulting to
the first tier of the list. -/
def selectTier (totalInputTokens : ℚ) (tiers : List TieredPricingConfig) :
    Option TieredPricingConfig :=
  match tiers.find? (fun tier =>
      decide (tier.range.1 ≤ totalInputTokens ∧ totalInputTokens ≤ tier.range.2)) with
  | some tier => some tier
  | none => tiers.head?

/-- The inner helper calculateInputLengthTieredCost of
calculateCostFromPricing: input-length-based range-tiered pricing.
Non-positive input costs nothing; a null or empty tier list falls back to
flat base pricing; otherwise the selected tier prices all three
components. -/
def calculateInputLengthTieredCost (totalInputTokens outputTokens cacheReadTokens : ℚ)
    (baseInputPrice baseOutputPrice : Option ℚ)
    (tieredPricing : Option (List TieredPricingConfig)) : TierCostResult :=
  if totalInputTokens ≤ 0 then ⟨0, 0, 0⟩
  else
    match tieredPricing with
    | none =>
      ⟨(match baseInputPrice with
        | some p => totalInputTokens * p
        | none => 0),
       (match baseOutputPrice with
        | some p => outputTokens * p
        | none => 0), 0⟩
    | some [] =>
      ⟨(match baseInputPrice with
        | some p => totalInputTokens * p
        | none => 0),
       (match baseOutputPrice with
        | some p => outputTokens * p
        | none => 0), 0⟩
    | some (t0 :: rest) =>
      let applicableTier := (selectTier totalInputTokens (t0 :: rest)).getD t0
      ⟨totalInputTokens * applicableTier.input_cost_per_token,
       outputTokens * applicableTier.output_cost_per_token,
       cacheReadTokens * (applicableTier.cache_read_input_token_cost.getD 0)⟩

/-- calculateCostFromPricing: total USD cost of a token usage under a
pricing record.  When tiered_pricing is an array the input/output costs
come from calculateInputLengthTieredCost and the two cache categories from
calculateTieredCost; otherwise all four categories use calculateTieredCost. -/
def calculateCostFromPricing (tokens : TokenUsage) (pricing : ModelPricing) : ℚ :=
  let hasTieredPricing := pricing.tiered_pricing.isSome
  if hasTieredPricing then
    let tieredResult := calculateInputLengthTieredCost
      tokens.input_tokens tokens.output_tokens
      (tokens.cache_read_input_tokens.getD 0)
      pricing.input_cost_per_token pricing.output_cost_per_token
      pricing.tiered_pricing
    let cacheCreationCost := calculateTieredCost
      tokens.cache_creation_input_tokens
      pricing.cache_creation_input_token_cost
      pricing.cache_creation_input_token_cost_above_200k_tokens
      DEFAULT_TIERED_THRESHOLD
    let cacheReadCost := calculateTieredCost
      tokens.cache_read_input_tokens
      pricing.cache_read_input_token_cost
      pricing.cache_read_input_token_cost_above_200k_tokens
      DEFAULT_TIERED_THRESHOLD
    tieredResult.inputCost + tieredResult.outputCost + cacheCreationCost + cacheReadCost
  else
    let inputCost := calculateTieredCost
      (some tokens.input_tokens)
      pricing.input_cost_per_token
      pricing.input_cost_per_token_above_200k_tokens
      DEFAULT_TIERED_THRESHOLD
    let outputCost := calculateTieredCost
      (some tokens.output_tokens)
      pricing.output_cost_per_token
      pricing.output_cost_per_token_above_200k_tokens
      DEFAULT_TIERED_THRESHOLD
    let cacheCreationCost := calculateTieredCost
      tokens.cache_creation_input_tokens
      pricing.cache_creation_input_token_cost
      pricing.cache_creation_input_token_cost_above_200k_tokens
      DEFAULT_TIERED_THRESHOLD
    let cacheReadCost := calculateTieredCost
      tokens.cache_read_input_tokens
      pricing.cache_read_input_token_cost
      pricing.cache_read_input_token_cost_above_200k_tokens
      DEFAULT_TIERED_THRESHOLD
    inputCost + outputCost + cacheCreationCost + cacheReadCost

/-! ### String primitives used by the resolver

JavaScript's toLowerCase, includes, startsWith and endsWith over the
character lists underlying Lean strings. -/

/-- Lower-case every character of a string (String.prototype.toLowerCase). -/
def lowerStr (s : String) : String := ⟨s.data.map Char.toLower⟩

/-- Does the needle occur as a contiguous run inside the haystack?
(String.prototype.includes). -/
def subOccurs (needle : List Char) : List Char → Bool
  | [] => needle.isEmpty
  | c :: rest => needle.isPrefixOf (c :: rest) || subOccurs needle rest

/-- Is the first list a suffix of the second? (String.prototype.endsWith). -/
def listIsSuffix (pat : List Char) : List Char → Bool
  | [] => pat.isEmpty
  | c :: rest => (pat == c :: rest) || listIsSuffix pat rest

/-- s.includes(sub). -/
def strIncludes (s sub : String) : Bool := subOccurs sub.data s.data

/-- s.endsWith(pat). -/
def strEndsWith (s pat : String) : Bool := listIsSuffix pat.data s.data

/-- s.startsWith(pat). -/
def strStartsWith (s pat : String) : Bool := pat.data.isPrefixOf s.data

/-! ### The three-phase resolver getModelPricing -/

/-- The pricing dataset: an insertion-ordered mapping from model key to
pricing record, as iterated by the JavaScript Map. -/
abbrev Dataset := List (String × ModelPricing)

/-- Exact (case-sensitive) dataset lookup: pricing.get(key). -/
def dsGet (ds : Dataset) (key : String) : Option ModelPricing :=
  (ds.find? (fun kv => kv.1 == key)).map (fun kv => kv.2)

/-- DEFAULT_PROVIDER_PREFIXES. -/
def DEFAULT_PROVIDER_PREFIXES : List String :=
  ["anthropic/", "claude-3-5-", "claude-3-", "claude-", "openai/", "azure/",
   "openrouter/openai/", "zai/", "streamlake/"]

/-- Insert a string into an ordered set kept as a list, preserving first
occurrences (the JavaScript Set used by createMatchingCandidates). -/
def insertUnique (seen : List String) (x : String) : List String :=
  if x ∈ seen then seen else seen ++ [x]

/-- createMatchingCandidates: the raw model name followed by every
provider-prefixed variant, first occurrences kept in order. -/
def createMatchingCandidates (providerPrefixes : List String) (modelName : String) :
    List String :=
  (modelName :: providerPrefixes.map (fun p => p ++ modelName)).foldl insertUnique []

/-- Phase 1 of getModelPricing: exact lookup of every candidate key in
order. -/
def phase1 (ds : Dataset) (providerPrefixes : List String) (modelName : String) :
    Option ModelPricing :=
  (createMatchingCandidates providerPrefixes modelName).findSome? (dsGet ds)

/-- Phase 2 of getModelPricing: first dataset entry whose lower-cased key
equals the lower-cased model name or ends with a slash followed by it. -/
def phase2 (ds : Dataset) (lower : String) : Option ModelPricing :=
  (ds.find? (fun kv =>
      lowerStr kv.1 == lower || strEndsWith (lowerStr kv.1) ("/" ++ lower))).map
    (fun kv => kv.2)

/-- The scoring of phase 3 of getModelPricing, applied to the lower-cased
model name and the lower-cased dataset key. -/
def fuzzyScore (lower comparison : String) : Nat :=
  if strIncludes comparison lower then
    if strIncludes comparison (lower ++ "/") || strEndsWith comparison ("/" ++ lower) then
      100
    else if strIncludes comparison lower && !(strIncludes comparison "air") then
      if strStartsWith comparison "zai/" then 95 else 90
    else if strIncludes comparison lower then 50
    else 0
  else if strIncludes lower comparison then 10
  else 0

/-- One step of the best-match loop of phase 3: replace the current best
only on a strictly greater score. -/
def fuzzyStep (lower : String) (acc : Option ModelPricing × Nat)
    (kv : String × ModelPricing) : Option ModelPricing × Nat :=
  let score := fuzzyScore lower (lowerStr kv.1)
  if acc.2 < score then (some kv.2, score) else acc

/-- Phase 3 of getModelPricing: scan the dataset accumulating the best
scored match, starting from no match and score 0. -/
def fuzzyBest (lower : String) (ds : Dataset) : Option ModelPricing :=
  (ds.foldl (fuzzyStep lower) (none, 0)).1

/-- getModelPricing after the dataset is loaded: phase 1, then phase 2 on
the lower-cased name, then the fuzzy scan. -/
def getModelPricing (ds : Dataset) (providerPrefixes : List String)
    (modelName : String) : Option ModelPricing :=
  match phase1 ds providerPrefixes modelName with
  | some direct => some direct
  | none =>
    match phase2 ds (lowerStr modelName) with
    | some value => some value
    | none => fuzzyBest (lowerStr modelName) ds

/-- calculateCostFromTokens after the dataset is loaded: a null or empty
model name succeeds with cost 0; otherwise resolution failure is an
explicit error and success carries calculateCostFromPricing. -/
def calculateCostFromTokens (ds : Dataset) (providerPrefixes : List String)
    (tokens : TokenUsage) (modelName : Option String) : Except String ℚ :=
  match modelName with
  | none => Except.ok 0
  | some name =>
    if name = "" then Except.ok 0
    else
      match getModelPricing ds providerPrefixes name with
      | none => Except.error ("Model pricing not found for " ++ name)
      | some pricing => Except.ok (calculateCostFromPricing tokens pricing)

/-! ### Dataset loader (loadLocalPricingDataset) -/

/-- Parsed JSON values of the raw pricing source. -/
inductive Json where
  | num (q : ℚ)
  | str (s : String)
  | bool (b : Bool)
  | null
  | arr (items : List Json)
  | obj (fields : List (String × Json))

/-- Look up a field of a JSON object by name. -/
def jsonLookup (fields : List (String × Json)) (key : String) : Option Json :=
  (fields.find? (fun kv => kv.1 == key)).map (fun kv => kv.2)

/-- Validate one optional numeric field: absent is fine, a number is kept,
anything else fails the whole record (v.optional applied to v.number). -/
def parseOptNumber (fields : List (String × Json)) (key : String) :
    Option (Option ℚ) :=
  match jsonLookup fields key with
  | none => some none
  | some (Json.num q) => some (some q)
  | some _ => none

/-- Validate one tiered_pricing entry: required numeric input and output
rates, a range tuple whose first two items are numbers, and an optional
numeric cache-read rate. -/
def parseTier (j : Json) : Option TieredPricingConfig :=
  match j with
  | Json.obj fields =>
    match jsonLookup fields "input_cost_per_token",
          jsonLookup fields "output_cost_per_token",
          jsonLookup fields "range" with
    | some (Json.num i), some (Json.num o),
      some (Json.arr (Json.num r1 :: Json.num r2 :: _)) =>
      match parseOptNumber fields "cache_read_input_token_cost" with
      | some c => some ⟨i, o, (r1, r2), c⟩
      | none => none
    | _, _, _ => none
  | _ => none

/-- Validate the optional tiered_pricing array: every item must be a
well-formed tier. -/
def parseTierField (fields : List (String × Json)) :
    Option (Option (List TieredPricingConfig)) :=
  match jsonLookup fields "tiered_pricing" with
  | none => some none
  | some (Json.arr items) => (items.mapM parseTier).map some
  | some _ => none

/-- safeParse against modelPricingSchema: only plain objects validate,
every declared field is optional, unknown fields are ignored. -/
def parseModelPricing (j : Json) : Option ModelPricing :=
  match j with
  | Json.obj fields => do
    let icpt ← parseOptNumber fields "input_cost_per_token"
    let ocpt ← parseOptNumber fields "output_cost_per_token"
    let cccpt ← parseOptNumber fields "cache_creation_input_token_cost"
    let crcpt ← parseOptNumber fields "cache_read_input_token_cost"
    let mt ← parseOptNumber fields "max_tokens"
    let mit ← parseOptNumber fields "max_input_tokens"
    let mot ← parseOptNumber fields "max_output_tokens"
    let iAbove ← parseOptNumber fields "input_cost_per_token_above_200k_tokens"
    let oAbove ← parseOptNumber fields "output_cost_per_token_above_200k_tokens"
    let ccAbove ← parseOptNumber fields "cache_creation_input_token_cost_above_200k_tokens"
    let crAbove ← parseOptNumber fields "cache_read_input_token_cost_above_200k_tokens"
    let i128 ← parseOptNumber fields "input_cost_per_token_above_128k_tokens"
    let o128 ← parseOptNumber fields "output_cost_per_token_above_128k_tokens"
    let tp ← parseTierField fields
    some ⟨icpt, ocpt, cccpt, crcpt, mt, mit, mot, iAbove, oAbove, ccAbove,
          crAbove, i128, o128, tp⟩
  | _ => none

/-- The entry loop of loadLocalPricingDataset: entries that are not
objects or fail schema validation are skipped, validating entries are
kept in order. -/
def loadDatasetEntries : List (String × Json) → List (String × ModelPricing)
  | [] => []
  | (modelName, modelData) :: rest =>
    match parseModelPricing modelData with
    | some parsed => (modelName, parsed) :: loadDatasetEntries rest
    | none => loadDatasetEntries rest

/-- loadLocalPricingDataset: a raw source that could not be read or parsed
(modelled as none) yields the empty dataset; otherwise the validated
entries. -/
def loadLocalPricingDataset (rawSource : Option (List (String × Json))) :
    List (String × ModelPricing) :=
  match rawSource with
  | none => []
  | some entries => loadDatasetEntries entries

/-! ### Concurrency model of ensurePricingLoaded

ensurePricingLoaded reads the cachedPricing field, and when it is null
invokes the offline loader and suspends at the await; the cache is written
only after the load resolves.  Two concurrent calls on one engine are
modelled as two tasks stepped by an explicit schedule, counting loader
invocations. -/

/-- Program counter of one ensurePricingLoaded call: before the cache
check, suspended at the await of the loader, or finished. -/
inductive TaskPC where
  | start
  | awaitLoad
  | done
deriving DecidableEq

/-- Engine state plus the two callers' program counters. -/
structure LoadRun where
  cachedPricing : Option Nat
  loaderInvocations : Nat
  pcA : TaskPC
  pcB : TaskPC
deriving DecidableEq

/-- One step of one ensurePricingLoaded call: at start, a non-null cache
finishes immediately, a null cache invokes the loader and suspends; at the
await, the load resolves and the cache is written. -/
def stepEnsure (loaded : Nat) (cached : Option Nat) (invocations : Nat)
    (pc : TaskPC) : Option Nat × Nat × TaskPC :=
  match pc with
  | TaskPC.start =>
    match cached with
    | some _ => (cached, invocations, TaskPC.done)
    | none => (cached, invocations + 1, TaskPC.awaitLoad)
  | TaskPC.awaitLoad => (some loaded, invocations, TaskPC.done)
  | TaskPC.done => (cached, invocations, TaskPC.done)

/-- Run the two concurrent calls under a schedule: true steps caller A,
false steps caller B. -/
def runSchedule (loaded : Nat) : List Bool → LoadRun → LoadRun
  | [], st => st
  | pick :: rest, st =>
    if pick then
      let next := stepEnsure loaded st.cachedPricing st.loaderInvocations st.pcA
      runSchedule loaded rest ⟨next.1, next.2.1, next.2.2, st.pcB⟩
    else
      let next := stepEnsure loaded st.cachedPricing st.loaderInvocations st.pcB
      runSchedule loaded rest ⟨next.1, next.2.1, st.pcA, next.2.2⟩

/-! ### Definitions following the specification text

These restate, in the specification's own words, the algorithms that the
claims compare with the source definitions above. -/

/-- The specification's piecewise tieredCost: 0 for a non-positive count;
the split rate above the threshold when an above-rate is present; the flat
base rate when present; otherwise 0. -/
def specTieredCost (t : ℚ) (baseRate aboveRate : Option ℚ) (threshold : ℚ) : ℚ :=
  if t ≤ 0 then 0
  else if t > threshold ∧ aboveRate.isSome = true then
    (min t threshold) * baseRate.getD 0 + (max 0 (t - threshold)) * aboveRate.getD 0
  else
    match baseRate with
    | some r => t * r
    | none => 0

/-- The specification's fuzzy score as a flat chain: 100 for a
provider/model shape, 95 for a non-air match under the zai provider, 90
for any other non-air match, 50 for any other containment, 10 for reverse
containment, else 0. -/
def specFuzzyScore (m k : String) : Nat :=
  if strIncludes k (m ++ "/") || strEndsWith k ("/" ++ m) then 100
  else if strIncludes k m && !(strIncludes k "air") && strStartsWith k "zai/" then 95
  else if strIncludes k m && !(strIncludes k "air") then 90
  else if strIncludes k m then 50
  else if strIncludes m k then 10
  else 0

/-- The maximum fuzzy score over a dataset for a lower-cased query. -/
def specScoresMax (m : String) (ds : Dataset) : Nat :=
  (ds.map (fun kv => specFuzzyScore m (lowerStr kv.1))).foldr max 0

/-- The specification's description of the fuzzy phase result: not-found
when the maximum score is 0, else the record of the first key attaining
the maximum score. -/
def bestFuzzyCandidate (m : String) (ds : Dataset) : Option ModelPricing :=
  if specScoresMax m ds = 0 then none
  else (ds.find? (fun kv => specFuzzyScore m (lowerStr kv.1) == specScoresMax m ds)).map
    (fun kv => kv.2)

/-! ### Helper lemmas about the string primitives -/

theorem isPrefixOf_of_append (a b l : List Char)
    (h : (a ++ b).isPrefixOf l = true) : a.isPrefixOf l = true := by
  induction a generalizing l with
  | nil => simp [List.isPrefixOf]
  | cons c a ih =>
    cases l with
    | nil => simp [List.isPrefixOf] at h
    | cons d l =>
      simp only [List.cons_append, List.isPrefixOf, Bool.and_eq_true] at h ⊢
      exact ⟨h.1, ih l h.2⟩

theorem subOccurs_of_append (a b h : List Char)
    (hh : subOccurs (a ++ b) h = true) : subOccurs a h = true := by
  induction h with
  | nil =>
    simp only [subOccurs, List.isEmpty_eq_true, List.append_eq_nil] at hh ⊢
    exact hh.1
  | cons c rest ih =>
    simp only [subOccurs, Bool.or_eq_true] at hh ⊢
    rcases hh with h1 | h2
    · exact Or.inl (isPrefixOf_of_append a b _ h1)
    · exact Or.inr (ih h2)

theorem isPrefixOf_self (l : List Char) : l.isPrefixOf l = true := by
  induction l with
  | nil => rfl
  | cons c rest ih => simp [List.isPrefixOf, ih]

theorem subOccurs_append_self (a b : List Char) : subOccurs b (a ++ b) = true := by
  induction a with
  | nil =>
    cases b with
    | nil => rfl
    | cons c rest => simp [subOccurs, isPrefixOf_self]
  | cons c a ih =>
    simp only [List.cons_append, subOccurs, Bool.or_eq_true]
    exact Or.inr ih

theorem listIsSuffix_subOccurs (a b h : List Char)
    (hh : listIsSuffix (a ++ b) h = true) : subOccurs b h = true := by
  induction h with
  | nil =>
    simp only [listIsSuffix, List.isEmpty_eq_true, List.append_eq_nil] at hh
    simp [subOccurs, hh.2]
  | cons c rest ih =>
    simp only [listIsSuffix, Bool.or_eq_true] at hh
    rcases hh with h1 | h2
    · have heq : a ++ b = c :: rest := by
        exact eq_of_beq h1
      rw [← heq]
      exact subOccurs_append_self a b
    · simp only [subOccurs, Bool.or_eq_true]
      exact Or.inr (ih h2)

theorem strIncludes_of_slash_append (k m : String)
    (h : strIncludes k (m ++ "/") = true) : strIncludes k m = true := by
  unfold strIncludes at h ⊢
  rw [String.data_append] at h
  exact subOccurs_of_append m.data "/".data k.data h

theorem strIncludes_of_endsWith_slash (k m : String)
    (h : strEndsWith k ("/" ++ m) = true) : strIncludes k m = true := by
  unfold strEndsWith at h
  unfold strIncludes
  rw [String.data_append] at h
  exact listIsSuffix_subOccurs "/".data m.data k.data h

/-- The source's nested fuzzy scoring agrees with the specification's flat
chain at every pair of lower-cased query and key. -/
theorem fuzzyScore_eq_spec (m k : String) : fuzzyScore m k = specFuzzyScore m k := by
  unfold fuzzyScore specFuzzyScore
  by_cases h100 : (strIncludes k (m ++ "/") || strEndsWith k ("/" ++ m)) = true
  · have hmk : strIncludes k m = true := by
      rcases Bool.or_eq_true _ _ |>.mp h100 with h1 | h2
      · exact strIncludes_of_slash_append k m h1
      · exact strIncludes_of_endsWith_slash k m h2
    simp [h100, hmk]
  · by_cases hmk : strIncludes k m = true
    · by_cases hair : strIncludes k "air" = true
      · simp [h100, hmk, hair]
      · by_cases hzai : strStartsWith k "zai/" = true
        · simp [h100, hmk, hair, hzai]
        · simp [h100, hmk, hair, hzai]
    · simp [h100, hmk]

/-! ### The fuzzy scan computes the first maximum-score candidate -/

/-- The maximum source fuzzy score over a dataset. -/
def fuzzyScoresMax (lower : String) (ds : Dataset) : Nat :=
  (ds.map (fun kv => fuzzyScore lower (lowerStr kv.1))).foldr max 0

theorem specScoresMax_eq_fuzzy (m : String) (ds : Dataset) :
    specScoresMax m ds = fuzzyScoresMax m ds := by
  unfold specScoresMax fuzzyScoresMax
  have : (fun kv : String × ModelPricing => specFuzzyScore m (lowerStr kv.1))
      = fun kv => fuzzyScore m (lowerStr kv.1) := by
    funext kv
    exact (fuzzyScore_eq_spec m (lowerStr kv.1)).symm
  rw [this]

/-- The strict-improvement fold of phase 3, run from any accumulator,
ends at the first entry attaining the maximum score when that maximum
beats the accumulator, and keeps the accumulator otherwise. -/
theorem fuzzyFold_eq (lower : String) (l : Dataset) (b : Option ModelPricing) (s : Nat) :
    l.foldl (fuzzyStep lower) (b, s)
      = if s < fuzzyScoresMax lower l
        then ((l.find? (fun kv =>
                fuzzyScore lower (lowerStr kv.1) == fuzzyScoresMax lower l)).map
                (fun kv => kv.2),
              fuzzyScoresMax lower l)
        else (b, s) := by
  induction l generalizing b s with
  | nil => simp [fuzzyScoresMax]
  | cons kv rest ih =>
    have hmax : fuzzyScoresMax lower (kv :: rest)
        = max (fuzzyScore lower (lowerStr kv.1)) (fuzzyScoresMax lower rest) := by
      simp [fuzzyScoresMax]
    by_cases hs : s < fuzzyScore lower (lowerStr kv.1)
    · have hstep : (kv :: rest).foldl (fuzzyStep lower) (b, s)
          = rest.foldl (fuzzyStep lower) (some kv.2, fuzzyScore lower (lowerStr kv.1)) := by
        simp [List.foldl_cons, fuzzyStep, hs]
      rw [hstep, ih]
      by_cases hm : fuzzyScore lower (lowerStr kv.1) < fuzzyScoresMax lower rest
      · have h1 : max (fuzzyScore lower (lowerStr kv.1)) (fuzzyScoresMax lower rest)
            = fuzzyScoresMax lower rest := Nat.max_eq_right (Nat.le_of_lt hm)
        rw [hmax, h1]
        have hlt : s < fuzzyScoresMax lower rest := Nat.lt_trans hs hm
        have hne : (fuzzyScore lower (lowerStr kv.1)
            == fuzzyScoresMax lower rest) = false := by
          simp [Nat.ne_of_lt hm]
        simp [hm, hlt, List.find?_cons, hne]
      · have h1 : max (fuzzyScore lower (lowerStr kv.1)) (fuzzyScoresMax lower rest)
            = fuzzyScore lower (lowerStr kv.1) := Nat.max_eq_left (Nat.le_of_not_lt hm)
        rw [hmax, h1]
        simp [hm, hs, List.find?_cons]
    · have hstep : (kv :: rest).foldl (fuzzyStep lower) (b, s)
          = rest.foldl (fuzzyStep lower) (b, s) := by
        simp [List.foldl_cons, fuzzyStep, hs]
      rw [hstep, ih]
      by_cases hm : s < fuzzyScoresMax lower rest
      · have hscM : fuzzyScore lower (lowerStr kv.1) < fuzzyScoresMax lower rest :=
          Nat.lt_of_le_of_lt (Nat.le_of_not_lt hs) hm
        have h1 : max (fuzzyScore lower (lowerStr kv.1)) (fuzzyScoresMax lower rest)
            = fuzzyScoresMax lower rest := Nat.max_eq_right (Nat.le_of_lt hscM)
        rw [hmax, h1]
        have hne : (fuzzyScore lower (lowerStr kv.1)
            == fuzzyScoresMax lower rest) = false := by
          simp [Nat.ne_of_lt hscM]
        simp [hm, List.find?_cons, hne]
      · rw [hmax]
        have h2 : ¬ s < max (fuzzyScore lower (lowerStr kv.1)) (fuzzyScoresMax lower rest) :=
          Nat.not_lt.mpr (Nat.max_le.mpr
            ⟨Nat.le_of_not_lt hs, Nat.le_of_not_lt hm⟩)
        simp [hm, h2]

/-- The maximum of a list of naturals is 0 or one of its members. -/
theorem foldr_max_zero_or_mem (l : List Nat) :
    l.foldr max 0 = 0 ∨ l.foldr max 0 ∈ l := by
  induction l with
  | nil => left; rfl
  | cons a l ih =>
    simp only [List.foldr]
    rcases Nat.le_total a (l.foldr max 0) with h | h
    · rw [Nat.max_eq_right h]
      rcases ih with h0 | hmem
      · left; exact h0
      · right; exact List.mem_cons_of_mem a hmem
    · rw [Nat.max_eq_left h]
      right; exact List.mem_cons_self a l

/-! ### Concrete records used by the claim theorems -/

/-- Tier 1 of the KAT-Coder-Pro V1 schedule of the repository's tests. -/
def katTier1 : TieredPricingConfig :=
  ⟨6/10000000, 24/10000000, (0, 32000), some (12/100000000)⟩

/-- Tier 2 of the KAT-Coder-Pro V1 schedule. -/
def katTier2 : TieredPricingConfig :=
  ⟨9/10000000, 36/10000000, (32000, 128000), some (18/100000000)⟩

/-- Tier 3 of the KAT-Coder-Pro V1 schedule. -/
def katTier3 : TieredPricingConfig :=
  ⟨15/10000000, 60/10000000, (128000, 256000), some (30/100000000)⟩

/-- The KAT-Coder-Pro V1 pricing record of the repository's tests. -/
def katPricing : ModelPricing :=
  { blankPricing with
    input_cost_per_token := some (6/10000000),
    output_cost_per_token := some (24/10000000),
    cache_read_input_token_cost := some (12/100000000),
    tiered_pricing := some [katTier1, katTier2, katTier3] }

/-- The tier-2 token usage of the repository's tests. -/
def katTokens : TokenUsage := ⟨50000, 10000, none, some 5000⟩

/-! ### Claim theorems -/

/-- C1: code bug.  In range-tiered mode the tier selected for 50000 input
tokens carries cache-read rate 18e-8, so the tier-priced cache-read
component is 5000 × 18e-8 = 9/10000 — yet the total returned by
calculateCostFromPricing is 51/625 = 0.0816, which is the sum with the
cache-read tokens billed at the top-level rate 12e-8 instead; the claimed
tier-rate total 9/200 + 9/250 + 9/10000 = 0.0819 differs.  The computed
tier cacheReadCost is discarded by the source's final sum. -/
theorem claim_C1_cacheRead_topLevel_rate_eval :
    (calculateInputLengthTieredCost 50000 10000 5000 (some (6/10000000))
        (some (24/10000000)) (some [katTier1, katTier2, katTier3])).cacheReadCost
      = 9/10000
    ∧ calculateCostFromPricing katTokens katPricing = 51/625
    ∧ (51/625 : ℚ) ≠ 9/200 + 9/250 + 9/10000 := by
  refine ⟨?_, ?_, by norm_num⟩
  · norm_num [calculateInputLengthTieredCost, selectTier, List.find?,
      katTier1, katTier2, katTier3, Option.getD]
  · norm_num [calculateCostFromPricing, calculateInputLengthTieredCost,
      calculateTieredCost, selectTier, List.find?, katTokens, katPricing,
      katTier1, katTier2, katTier3, blankPricing, DEFAULT_TIERED_THRESHOLD,
      Option.getD, Option.isSome]

/-- A record whose tiered_pricing is an empty array, with a base and an
above-200k input rate. -/
def emptyTiersPricing : ModelPricing :=
  { blankPricing with
    input_cost_per_token := some (3/1000000),
    input_cost_per_token_above_200k_tokens := some (6/1000000),
    tiered_pricing := some [] }

/-- 300000 input tokens and nothing else. -/
def emptyTiersTokens : TokenUsage := ⟨300000, 0, none, none⟩

/-- C2 counterexample: with an empty (present) tier list the code still
takes the range-tiered branch, billing 300000 input tokens flat at the
base rate (total 9/10), whereas billing every category by threshold-tiered
mode, as the claim states for an empty tier list, yields 6/5. -/
theorem claim_C2_counterexample :
    calculateCostFromPricing emptyTiersTokens emptyTiersPricing = 9/10
    ∧ calculateTieredCost (some 300000) (some (3/1000000)) (some (6/1000000))
        DEFAULT_TIERED_THRESHOLD
      + calculateTieredCost (some 0) none none DEFAULT_TIERED_THRESHOLD
      + calculateTieredCost none none none DEFAULT_TIERED_THRESHOLD
      + calculateTieredCost none none none DEFAULT_TIERED_THRESHOLD = 6/5
    ∧ (9/10 : ℚ) ≠ 6/5 := by
  refine ⟨?_, ?_, by norm_num⟩
  · norm_num [calculateCostFromPricing, calculateInputLengthTieredCost,
      calculateTieredCost, emptyTiersTokens, emptyTiersPricing, blankPricing,
      DEFAULT_TIERED_THRESHOLD, Option.isSome]
  · norm_num [calculateTieredCost, DEFAULT_TIERED_THRESHOLD, Option.isSome,
      Option.getD]

/-- C2 amended: range-tiered mode is taken iff tiered_pricing is present,
even when empty.  When it is absent every category is billed by
threshold-tiered mode including the above-threshold rates; when it is
present but empty, input and output are billed flat at the base rates
(above-threshold rates are not applied) while the cache categories are
billed by threshold-tiered mode. -/
theorem claim_C2_amended (pricing : ModelPricing) (tokens : TokenUsage) :
    (pricing.tiered_pricing = none →
      calculateCostFromPricing tokens pricing
        = calculateTieredCost (some tokens.input_tokens) pricing.input_cost_per_token
            pricing.input_cost_per_token_above_200k_tokens DEFAULT_TIERED_THRESHOLD
          + calculateTieredCost (some tokens.output_tokens) pricing.output_cost_per_token
            pricing.output_cost_per_token_above_200k_tokens DEFAULT_TIERED_THRESHOLD
          + calculateTieredCost tokens.cache_creation_input_tokens
            pricing.cache_creation_input_token_cost
            pricing.cache_creation_input_token_cost_above_200k_tokens
            DEFAULT_TIERED_THRESHOLD
          + calculateTieredCost tokens.cache_read_input_tokens
            pricing.cache_read_input_token_cost
            pricing.cache_read_input_token_cost_above_200k_tokens
            DEFAULT_TIERED_THRESHOLD)
    ∧ (pricing.tiered_pricing = some [] →
      calculateCostFromPricing tokens pricing
        = (if tokens.input_tokens ≤ 0 then 0
           else
            (match pricing.input_cost_per_token with
             | some p => tokens.input_tokens * p
             | none => 0)
            + (match pricing.output_cost_per_token with
               | some p => tokens.output_tokens * p
               | none => 0))
          + calculateTieredCost tokens.cache_creation_input_tokens
            pricing.cache_creation_input_token_cost
            pricing.cache_creation_input_token_cost_above_200k_tokens
            DEFAULT_TIERED_THRESHOLD
          + calculateTieredCost tokens.cache_read_input_tokens
            pricing.cache_read_input_token_cost
            pricing.cache_read_input_token_cost_above_200k_tokens
            DEFAULT_TIERED_THRESHOLD) := by
  constructor
  · intro h
    simp [calculateCostFromPricing, h]
  · intro h
    by_cases h0 : tokens.input_tokens ≤ 0 <;>
      simp [calculateCostFromPricing, calculateInputLengthTieredCost, h, h0]

/-- A record without tiers, input rate 2, output rate 1. -/
def flatPricingA : ModelPricing :=
  { blankPricing with
    input_cost_per_token := some 2,
    output_cost_per_token := some 1 }

/-- The same rates with an empty tier list present. -/
def flatPricingB : ModelPricing :=
  { blankPricing with
    input_cost_per_token := some 2,
    output_cost_per_token := some 1,
    tiered_pricing := some [] }

/-- 3 input and 7 output tokens. -/
def flatTokens : TokenUsage := ⟨3, 7, none, none⟩

/-- Witness for the amended C2: both branches evaluated at concrete
records. -/
theorem claim_C2_amended_witness :
    calculateCostFromPricing flatTokens flatPricingA = 13
    ∧ calculateCostFromPricing flatTokens flatPricingB = 13 := by
  constructor
  · rw [(claim_C2_amended flatPricingA flatTokens).1 rfl]
    norm_num [calculateTieredCost, flatTokens, flatPricingA, blankPricing,
      DEFAULT_TIERED_THRESHOLD, Option.isSome]
  · rw [(claim_C2_amended flatPricingB flatTokens).2 rfl]
    norm_num [calculateTieredCost, flatTokens, flatPricingB, blankPricing,
      DEFAULT_TIERED_THRESHOLD, Option.isSome]

/-- C3: calculateTieredCost agrees with the specification's piecewise
reference at every count, rate pair and threshold; at the default
threshold, exactly the threshold count is billed at the base rate alone
and one token past it adds exactly one token at the above-rate. -/
theorem claim_C3_tieredCost_matches_spec :
    (∀ (t threshold : ℚ) (r r2 : Option ℚ),
      calculateTieredCost (some t) r r2 threshold = specTieredCost t r r2 threshold)
    ∧ (∀ r r2 : ℚ,
      calculateTieredCost (some 200000) (some r) (some r2) DEFAULT_TIERED_THRESHOLD
        = 200000 * r)
    ∧ (∀ r r2 : ℚ,
      calculateTieredCost (some 200001) (some r) (some r2) DEFAULT_TIERED_THRESHOLD
        = 200000 * r + 1 * r2) := by
  refine ⟨?_, ?_, ?_⟩
  · intro t threshold r r2
    rcases r with _ | br <;> rcases r2 with _ | ar <;>
      simp only [calculateTieredCost, specTieredCost, Option.isSome,
        Option.getD_some, Option.getD_none, and_true, and_false] <;>
      split_ifs <;> simp_all <;> ring
  · intro r r2
    simp only [calculateTieredCost, DEFAULT_TIERED_THRESHOLD]
    norm_num
  · intro r r2
    simp only [calculateTieredCost, DEFAULT_TIERED_THRESHOLD]
    norm_num [min_def, max_def]
    ring

/-- C6: with a non-empty tier list and positive input, every component of
calculateInputLengthTieredCost is priced by the first tier whose inclusive
range contains the input count, defaulting to the first tier; at the
32000/32001 boundary of the KAT schedule, tier 1 and tier 2 are selected
respectively. -/
theorem claim_C6_tier_selection (t out cr : ℚ) (bi bo : Option ℚ)
    (t0 : TieredPricingConfig) (rest : List TieredPricingConfig) (h : 0 < t) :
    calculateInputLengthTieredCost t out cr bi bo (some (t0 :: rest))
      = ⟨t * (((t0 :: rest).find? (fun tier =>
            decide (tier.range.1 ≤ t ∧ t ≤ tier.range.2))).getD t0).input_cost_per_token,
         out * (((t0 :: rest).find? (fun tier =>
            decide (tier.range.1 ≤ t ∧ t ≤ tier.range.2))).getD t0).output_cost_per_token,
         cr * ((((t0 :: rest).find? (fun tier =>
            decide (tier.range.1 ≤ t ∧ t ≤ tier.range.2))).getD t0).cache_read_input_token_cost.getD 0)⟩
    ∧ selectTier 32000 [katTier1, katTier2] = some katTier1
    ∧ selectTier 32001 [katTier1, katTier2] = some katTier2 := by
  refine ⟨?_, by norm_num [selectTier, List.find?, katTier1, katTier2],
    by norm_num [selectTier, List.find?, katTier1, katTier2]⟩
  have hnot : ¬ t ≤ 0 := not_le.mpr h
  simp only [calculateInputLengthTieredCost, hnot, if_false]
  unfold selectTier
  cases hfind : (t0 :: rest).find? (fun tier =>
      decide (tier.range.1 ≤ t ∧ t ≤ tier.range.2)) with
  | none => simp [hfind]
  | some tier => simp [hfind]

/-- Witness for C6: the 32001-token boundary usage is priced entirely by
tier 2. -/
theorem claim_C6_witness :
    calculateInputLengthTieredCost 32001 7 5 none none (some [katTier1, katTier2])
      = ⟨32001 * katTier2.input_cost_per_token, 7 * katTier2.output_cost_per_token,
         5 * (katTier2.cache_read_input_token_cost.getD 0)⟩ := by
  rw [(claim_C6_tier_selection 32001 7 5 none none katTier1 [katTier2] (by norm_num)).1]
  norm_num [List.find?, katTier1, katTier2]

/-- C10: whenever tiered_pricing is an array and the input count is
non-positive, the range-tiered input and output components are both 0 —
even for positive output — and the total is exactly the two
threshold-tiered cache costs from the top-level rates. -/
theorem claim_C10_nonpositive_input (pricing : ModelPricing)
    (tokens : TokenUsage) (l : List TieredPricingConfig)
    (h1 : pricing.tiered_pricing = some l) (h2 : tokens.input_tokens ≤ 0) :
    (calculateInputLengthTieredCost tokens.input_tokens tokens.output_tokens
        (tokens.cache_read_input_tokens.getD 0) pricing.input_cost_per_token
        pricing.output_cost_per_token pricing.tiered_pricing).inputCost = 0
    ∧ (calculateInputLengthTieredCost tokens.input_tokens tokens.output_tokens
        (tokens.cache_read_input_tokens.getD 0) pricing.input_cost_per_token
        pricing.output_cost_per_token pricing.tiered_pricing).outputCost = 0
    ∧ calculateCostFromPricing tokens pricing
      = calculateTieredCost tokens.cache_creation_input_tokens
          pricing.cache_creation_input_token_cost
          pricing.cache_creation_input_token_cost_above_200k_tokens
          DEFAULT_TIERED_THRESHOLD
        + calculateTieredCost tokens.cache_read_input_tokens
          pricing.cache_read_input_token_cost
          pricing.cache_read_input_token_cost_above_200k_tokens
          DEFAULT_TIERED_THRESHOLD := by
  refine ⟨?_, ?_, ?_⟩ <;>
    simp [calculateCostFromPricing, calculateInputLengthTieredCost, h1, h2]

/-- A record with a tier list and a top-level cache-read rate. -/
def cacheOnlyPricing : ModelPricing :=
  { blankPricing with
    cache_read_input_token_cost := some 2,
    tiered_pricing := some [katTier1] }

/-- Zero input, positive output, 3 cache-read tokens. -/
def cacheOnlyTokens : TokenUsage := ⟨0, 5, none, some 3⟩

/-- Witness for C10: zero input with positive output yields only the
cache-read cost 3 × 2 = 6. -/
theorem claim_C10_witness :
    calculateCostFromPricing cacheOnlyTokens cacheOnlyPricing = 6 := by
  rw [(claim_C10_nonpositive_input cacheOnlyPricing cacheOnlyTokens [katTier1]
    rfl (by norm_num [cacheOnlyTokens])).2.2]
  norm_num [calculateTieredCost, cacheOnlyTokens, cacheOnlyPricing, blankPricing,
    DEFAULT_TIERED_THRESHOLD, Option.isSome]

/-- C5 counterexample: over the empty dataset the resolver finds nothing
for the empty model identifier, yet calculateCostFromTokens succeeds with
cost 0 instead of the not-found error. -/
theorem claim_C5_counterexample :
    getModelPricing [] DEFAULT_PROVIDER_PREFIXES "" = none
    ∧ calculateCostFromTokens [] DEFAULT_PROVIDER_PREFIXES ⟨1000, 500, none, none⟩
        (some "") = Except.ok 0
    ∧ (Except.ok (0 : ℚ) : Except String ℚ)
        ≠ Except.error "Model pricing not found for " := by
  refine ⟨by decide, by rfl, fun h => nomatch h⟩

/-- C5 amended: for every non-empty model identifier that the three-phase
resolver cannot resolve, calculateCostFromTokens returns the explicit
not-found error, which is distinct from every zero-cost success. -/
theorem claim_C5_not_found_error (ds : Dataset) (providerPrefixes : List String)
    (tokens : TokenUsage) (modelName : String) (h1 : modelName ≠ "")
    (h2 : getModelPricing ds providerPrefixes modelName = none) :
    calculateCostFromTokens ds providerPrefixes tokens (some modelName)
      = Except.error ("Model pricing not found for " ++ modelName)
    ∧ ∀ (c : ℚ) (e : String), (Except.ok c : Except String ℚ) ≠ Except.error e := by
  refine ⟨?_, fun c e h => nomatch h⟩
  simp [calculateCostFromTokens, h1, h2]

/-- Witness for the amended C5: an unknown model over the empty dataset
yields the explicit error. -/
theorem claim_C5_witness :
    calculateCostFromTokens [] DEFAULT_PROVIDER_PREFIXES ⟨1000, 500, none, none⟩
      (some "totally-unknown-model-xyz")
      = Except.error ("Model pricing not found for " ++ "totally-unknown-model-xyz") :=
  (claim_C5_not_found_error [] DEFAULT_PROVIDER_PREFIXES ⟨1000, 500, none, none⟩
    "totally-unknown-model-xyz" (by decide) (by decide)).1

/-- C7: when phase 1 misses, the scan that accepts a key whose lower-cased
form equals the lower-cased model name or ends with a slash followed by it
determines the result: the first such entry's record is returned. -/
theorem claim_C7_suffix_phase (ds : Dataset) (providerPrefixes : List String)
    (modelName : String) (kv : String × ModelPricing)
    (h1 : phase1 ds providerPrefixes modelName = none)
    (h2 : ds.find? (fun e => lowerStr e.1 == lowerStr modelName
        || strEndsWith (lowerStr e.1) ("/" ++ lowerStr modelName)) = some kv) :
    getModelPricing ds providerPrefixes modelName = some kv.2 := by
  unfold getModelPricing phase2
  rw [h1, h2]
  rfl

/-- The record of the suffix-match example. -/
def kimiPricing : ModelPricing := { blankPricing with input_cost_per_token := some 3 }

/-- A dataset containing only a provider-qualified key. -/
def kimiDataset : Dataset := [("moonshot/kimi-for-coding", kimiPricing)]

/-- Witness for C7: the bare name resolves to the provider-qualified
record by the suffix scan. -/
theorem claim_C7_witness :
    getModelPricing kimiDataset DEFAULT_PROVIDER_PREFIXES "kimi-for-coding"
      = some kimiPricing :=
  claim_C7_suffix_phase kimiDataset DEFAULT_PROVIDER_PREFIXES "kimi-for-coding"
    ("moonshot/kimi-for-coding", kimiPricing) (by decide) (by decide)

/-- C9: code bug.  Scheduling two concurrent first calls so that both
check the cache before either load resolves makes the loader run twice
(the claim requires at most one in-flight load); a serialized schedule
runs it once. -/
theorem claim_C9_double_load :
    runSchedule 1 [true, false, true, false] ⟨none, 0, TaskPC.start, TaskPC.start⟩
      = ⟨some 1, 2, TaskPC.done, TaskPC.done⟩
    ∧ runSchedule 1 [true, true, false] ⟨none, 0, TaskPC.start, TaskPC.start⟩
      = ⟨some 1, 1, TaskPC.done, TaskPC.done⟩ :=
  ⟨rfl, rfl⟩

/-- C4: once phases 1 and 2 miss, every key is scored exactly as the
specification's chain prescribes, the result is the first entry attaining
the maximum score (replacement only on strictly greater score), and
not-found is returned exactly when the maximum score is 0. -/
theorem claim_C4_fuzzy_phase (ds : Dataset) (providerPrefixes : List String)
    (modelName : String)
    (h1 : phase1 ds providerPrefixes modelName = none)
    (h2 : phase2 ds (lowerStr modelName) = none) :
    (∀ k : String,
      fuzzyScore (lowerStr modelName) k = specFuzzyScore (lowerStr modelName) k)
    ∧ getModelPricing ds providerPrefixes modelName
        = bestFuzzyCandidate (lowerStr modelName) ds
    ∧ (getModelPricing ds providerPrefixes modelName = none
        ↔ specScoresMax (lowerStr modelName) ds = 0) := by
  have hget : getModelPricing ds providerPrefixes modelName
      = fuzzyBest (lowerStr modelName) ds := by
    unfold getModelPricing
    rw [h1, h2]
  have hbest : fuzzyBest (lowerStr modelName) ds
      = if 0 < fuzzyScoresMax (lowerStr modelName) ds
        then (ds.find? (fun kv => fuzzyScore (lowerStr modelName) (lowerStr kv.1)
            == fuzzyScoresMax (lowerStr modelName) ds)).map (fun kv => kv.2)
        else none := by
    unfold fuzzyBest
    rw [fuzzyFold_eq (lowerStr modelName) ds none 0]
    by_cases h : 0 < fuzzyScoresMax (lowerStr modelName) ds <;> simp [h]
  have hpred : (fun kv : String × ModelPricing =>
      specFuzzyScore (lowerStr modelName) (lowerStr kv.1)
        == fuzzyScoresMax (lowerStr modelName) ds)
      = (fun kv => fuzzyScore (lowerStr modelName) (lowerStr kv.1)
        == fuzzyScoresMax (lowerStr modelName) ds) := by
    funext kv
    rw [fuzzyScore_eq_spec]
  have hsome : fuzzyScoresMax (lowerStr modelName) ds ≠ 0 →
      (ds.find? (fun kv => fuzzyScore (lowerStr modelName) (lowerStr kv.1)
        == fuzzyScoresMax (lowerStr modelName) ds)).isSome = true := by
    intro hne
    rcases foldr_max_zero_or_mem
        (ds.map (fun kv => fuzzyScore (lowerStr modelName) (lowerStr kv.1))) with
      h0 | hmem
    · exact absurd h0 hne
    · rcases List.mem_map.mp hmem with ⟨kv, hkv, hscore⟩
      refine List.find?_isSome.mpr ⟨kv, hkv, ?_⟩
      simp only [beq_iff_eq]
      exact hscore
  refine ⟨fun k => fuzzyScore_eq_spec _ k, ?_, ?_⟩
  · rw [hget, hbest]
    unfold bestFuzzyCandidate
    rw [specScoresMax_eq_fuzzy, hpred]
    by_cases h : fuzzyScoresMax (lowerStr modelName) ds = 0
    · simp [h]
    · simp [h, Nat.pos_of_ne_zero h]
  · rw [hget, hbest, specScoresMax_eq_fuzzy]
    by_cases h : fuzzyScoresMax (lowerStr modelName) ds = 0
    · simp [h]
    · have hpos : 0 < fuzzyScoresMax (lowerStr modelName) ds := Nat.pos_of_ne_zero h
      simp only [hpos, if_true]
      constructor
      · intro hmap
        have hfind := Option.map_eq_none'.mp hmap
        have hs := hsome h
        rw [hfind] at hs
        simp at hs
      · intro h0
        exact absurd h0 h

/-- The air-variant record of the fuzzy tie-break example. -/
def glmAirPricing : ModelPricing := { blankPricing with input_cost_per_token := some 1 }

/-- The zai-provider record of the fuzzy tie-break example. -/
def glmZaiPricing : ModelPricing := { blankPricing with input_cost_per_token := some 2 }

/-- A dataset with an air variant first and a zai-provider key second. -/
def glmDataset : Dataset :=
  [("openrouter/glm-4.5-air", glmAirPricing), ("zai/glm-4.5", glmZaiPricing)]

/-- Witness for C4: with no prefixes and both exact phases missing, the
query glm scores the air key 50 and the zai key 95, so the zai record is
returned. -/
theorem claim_C4_witness :
    getModelPricing glmDataset [] "glm" = some glmZaiPricing := by
  have h := claim_C4_fuzzy_phase glmDataset [] "glm" (by decide) (by decide)
  rw [h.2.1]
  decide

/-- The entry loop of the loader keeps exactly the validating entries. -/
theorem loadDatasetEntries_eq_filterMap (entries : List (String × Json)) :
    loadDatasetEntries entries
      = entries.filterMap (fun e => (parseModelPricing e.2).map (fun p => (e.1, p))) := by
  induction entries with
  | nil => rfl
  | cons e rest ih =>
    obtain ⟨name, data⟩ := e
    cases hp : parseModelPricing data <;>
      simp [loadDatasetEntries, hp, ih]

/-- A well-formed raw entry with three numeric rate fields. -/
def goodEntry : String × Json :=
  ("gpt-5", Json.obj [("input_cost_per_token", Json.num 2),
                      ("output_cost_per_token", Json.num 3),
                      ("cache_read_input_token_cost", Json.num 5)])

/-- A raw entry whose numeric field carries a string. -/
def badEntry : String × Json :=
  ("bad-model", Json.obj [("input_cost_per_token", Json.str "free"),
                          ("output_cost_per_token", Json.num 1)])

/-- The validated record of the well-formed entry. -/
def goodPricing : ModelPricing :=
  { blankPricing with
    input_cost_per_token := some 2,
    output_cost_per_token := some 3,
    cache_read_input_token_cost := some 5 }

/-- C8: the loader keeps exactly the entries that validate against the
schema (skipping the rest), turns an unreadable or unparsable source into
the empty dataset, and on a source with one well-formed and one
wrong-typed entry yields exactly the well-formed one. -/
theorem claim_C8_loader_fail_soft :
    (∀ entries : List (String × Json),
      loadLocalPricingDataset (some entries)
        = entries.filterMap (fun e => (parseModelPricing e.2).map (fun p => (e.1, p))))
    ∧ loadLocalPricingDataset none = []
    ∧ loadLocalPricingDataset (some [goodEntry, badEntry]) = [("gpt-5", goodPricing)] := by
  refine ⟨fun entries => loadDatasetEntries_eq_filterMap entries, rfl, by decide⟩

end BetterCcusage
